import Mathlib

/-!
Verification development for the TicketingUi repository.

The repository is a React/Next.js ticketing UI. This file shallowly embeds
the parts of its code that the verified properties speak about:

* the `TicketmasterArena` component (`Seat`, `tiersConfig`,
  `generateArenaSeats`, `toggleSeat`, `selectedSeatDetails`, the cart
  arithmetic);
* the `useSocket` hook (room join/leave discipline and the shape of
  `seatUpdate` events);
* the `InteractiveSeatMap` component (`isSeatDisabled` and the click guard);
* the `MyTicketsPage` component (CONFIRMED filtering, the Upcoming/Past
  partition).

The server-side seat-locking core (Lock Manager / Reservation Coordinator)
is not present in the repository; where a property depends on it, the
missing component is modelled from the specification and the corresponding
definitions say so in their doc comments.

JavaScript floating-point values (`Math.random`, `Math.cos`, `Math.sin`,
`Math.PI`) are modelled as exact rationals supplied by an oracle parameter;
none of the verified properties depend on their numeric values.
-/

namespace TicketingUi

/-! ## Part 1: the `TicketmasterArena` component (src/unnamed/part_000) -/

/-- Status of a seat in the arena component's local state:
`status: "available" | "reserved"`. -/
inductive SeatStatus where
  | available
  | reserved
deriving DecidableEq, Repr

/-- The `Seat` interface of the arena component:
`{ id, x, y, tier, status }`.  The `x`/`y` floats are modelled as exact
rationals. -/
structure Seat where
  id : Nat
  x : ℚ
  y : ℚ
  tier : Nat
  status : SeatStatus
deriving DecidableEq, Repr

/-- One entry of `tiersConfig`. -/
structure Tier where
  name : String
  color : String
  radiusOffset : ℚ
  price : ℚ
deriving DecidableEq, Repr

/-- The `tiersConfig` constant of the arena component. -/
def tiersConfig : List Tier :=
  [ { name := "VIP",      color := "#FFD700", radiusOffset := 40,  price := 150 },
    { name := "Premium",  color := "#1E90FF", radiusOffset := 80,  price := 100 },
    { name := "Standard", color := "#32CD32", radiusOffset := 120, price := 75 },
    { name := "Economy",  color := "#FF6347", radiusOffset := 160, price := 50 },
    { name := "Balcony",  color := "#8A2BE2", radiusOffset := 200, price := 30 } ]

/-- Fallback tier used to model JavaScript's out-of-range indexing; the
generator only ever produces in-range tier indices. -/
def defaultTier : Tier := { name := "", color := "", radiusOffset := 0, price := 0 }

/-- Oracle for the floating-point functions used by `generateArenaSeats`:
`rand n` is the result of the n-th `Math.random()` call, and `cos`, `sin`,
`pi` stand for `Math.cos`, `Math.sin`, `Math.PI`. -/
structure FloatOracle where
  rand : Nat → ℚ
  cos : ℚ → ℚ
  sin : ℚ → ℚ
  pi : ℚ

/-- Number of seats generated per tier:
`Math.ceil(totalSeats / tiersConfig.length / 2)`. -/
def seatsPerTier (totalSeats : Nat) : Nat :=
  ⌈(totalSeats : ℚ) / (tiersConfig.length : ℚ) / 2⌉.toNat

/-- The `generateArenaSeats` function: one ring of seats per tier, seat ids
assigned sequentially starting from 1, each seat reserved with probability
0.15 (`Math.random() < 0.15`).  The three `Math.random()` calls made for
the k-th generated seat are `o.rand (3*k)`, `o.rand (3*k+1)`,
`o.rand (3*k+2)`. -/
def generateArenaSeats (o : FloatOracle) (totalSeats : Nat) : List Seat :=
  let seatsInTier := seatsPerTier totalSeats
  (List.range tiersConfig.length).flatMap (fun tierIndex =>
    (List.range seatsInTier).map (fun i =>
      let tier := tiersConfig.getD tierIndex defaultTier
      let k := tierIndex * seatsInTier + i
      let angle := ((i : ℚ) / (seatsInTier : ℚ)) * 2 * o.pi
      let x := 400 + tier.radiusOffset * o.cos angle + (o.rand (3 * k) - 1/2) * 5
      let y := 300 + tier.radiusOffset * o.sin angle + (o.rand (3 * k + 1) - 1/2) * 5
      let status := if o.rand (3 * k + 2) < 3/20 then SeatStatus.reserved
                    else SeatStatus.available
      { id := k + 1, x := x, y := y, tier := tierIndex, status := status }))

/-- The alert message shown when the selection cap is hit. -/
def maxSeatsAlert : String := "Maximum 10 seats allowed per order."

/-- The `toggleSeat` handler.  Inputs are the component state (`seats`,
`selectedSeats`) and the clicked seat id; the result is the new
`selectedSeats` value together with the alert raised, if any.

Branches follow the source exactly: unknown or reserved seats are ignored;
adding an 11th seat raises the alert and leaves the selection unchanged;
otherwise a selected id is filtered out and an unselected id is appended. -/
def toggleSeat (seats : List Seat) (selectedSeats : List Nat) (id : Nat) :
    List Nat × Option String :=
  match seats.find? (fun s => s.id == id) with
  | none => (selectedSeats, none)
  | some seat =>
    if seat.status = SeatStatus.reserved then (selectedSeats, none)
    else if selectedSeats.contains id = false ∧ 10 ≤ selectedSeats.length then
      (selectedSeats, some maxSeatsAlert)
    else if selectedSeats.contains id then
      (selectedSeats.filter (fun seatId => seatId != id), none)
    else
      (selectedSeats ++ [id], none)

/-- Folding a sequence of seat clicks through `toggleSeat`, starting from
the initial state `selectedSeats = []`. -/
def toggleRun (seats : List Seat) (clicks : List Nat) : List Nat :=
  clicks.foldl (fun sel id => (toggleSeat seats sel id).1) []

/-- One line of the cart: `{ id, tierName, price }`. -/
structure SeatDetail where
  id : Nat
  tierName : String
  price : ℚ
deriving DecidableEq, Repr

/-- The `selectedSeatDetails` memo: the selected seats, each paired with the
name and price of its tier (`tiersConfig[seat.tier]`). -/
def selectedSeatDetails (seats : List Seat) (selectedSeats : List Nat) :
    List SeatDetail :=
  (seats.filter (fun seat => selectedSeats.contains seat.id)).map (fun seat =>
    let tierInfo := tiersConfig.getD seat.tier defaultTier
    { id := seat.id, tierName := tierInfo.name, price := tierInfo.price })

/-- The cart subtotal: sum of the selected seats' tier prices. -/
def subtotal (seats : List Seat) (selectedSeats : List Nat) : ℚ :=
  (selectedSeatDetails seats selectedSeats).foldl (fun sum d => sum + d.price) 0

/-- The booking fee: `5.0` per selected seat (zero for an empty cart). -/
def fee (selectedSeats : List Nat) : ℚ :=
  if 0 < selectedSeats.length then 5 * selectedSeats.length else 0

/-- The cart total. -/
def cartTotal (seats : List Seat) (selectedSeats : List Nat) : ℚ :=
  subtotal seats selectedSeats + fee selectedSeats

/-! ## Part 2: the `useSocket` hook (src/src/hooks/useSocket.ts) -/

/-- One seat record of a `seatUpdate` event, from the hook's option type:
`{ _id: string; status: string; lockedBy?: string | null }`.
`lockedBy = none` models an absent field, `some none` an explicit `null`. -/
structure SeatUpdateSeat where
  _id : String
  status : String
  lockedBy : Option (Option String)
deriving DecidableEq, Repr

/-- A `seatUpdate` event payload: `{ seats: Array<...> }`. -/
structure SeatUpdatePayload where
  seats : List SeatUpdateSeat
deriving DecidableEq, Repr

/-- Untyped JSON-like values, used to state what shape the wire events may
and may not have. -/
inductive JVal where
  | jstr (s : String)
  | jnum (n : Int)
  | jnull
  | jarr (xs : List JVal)
  | jobj (fields : List (String × JVal))

/-- Value of a field in a JSON object field list (first match). -/
def jlookup (fields : List (String × JVal)) (key : String) : Option JVal :=
  (fields.find? (fun f => f.1 == key)).map (fun f => f.2)

/-- Whether an optional JSON value is a string. -/
def isJStr : Option JVal → Bool
  | some (JVal.jstr _) => true
  | _ => false

/-- Whether a JSON value fits the hook's per-seat record type
`{ _id: string; status: string; lockedBy?: string | null }`. -/
def isCodeSeatRecord (v : JVal) : Bool :=
  match v with
  | JVal.jobj fs =>
      isJStr (jlookup fs "_id") && isJStr (jlookup fs "status") &&
      (match jlookup fs "lockedBy" with
       | none => true
       | some (JVal.jstr _) => true
       | some JVal.jnull => true
       | _ => false)
  | _ => false

/-- Whether a JSON value fits the hook's event payload type
`{ seats: Array<{ _id, status, lockedBy? }> }`. -/
def isCodeSeatUpdateEvent (v : JVal) : Bool :=
  match v with
  | JVal.jobj fs =>
      match jlookup fs "seats" with
      | some (JVal.jarr xs) => xs.all isCodeSeatRecord
      | _ => false
  | _ => false

/-- Written from the specification's words, for comparison with the code's
event type: an event that is itself a record with fields `seatId`, `status`
and optional `lockedBy`. -/
def isSpecSeatUpdateEvent (v : JVal) : Bool :=
  match v with
  | JVal.jobj fs =>
      isJStr (jlookup fs "seatId") && isJStr (jlookup fs "status") &&
      (match jlookup fs "lockedBy" with
       | none => true
       | some (JVal.jstr _) => true
       | some JVal.jnull => true
       | _ => false)
  | _ => false

/-- JSON encoding of one seat record of a payload. -/
def encodeSeatUpdateSeat (s : SeatUpdateSeat) : JVal :=
  JVal.jobj
    ([("_id", JVal.jstr s._id), ("status", JVal.jstr s.status)] ++
      (match s.lockedBy with
       | none => []
       | some none => [("lockedBy", JVal.jnull)]
       | some (some u) => [("lockedBy", JVal.jstr u)]))

/-- JSON encoding of a whole `seatUpdate` payload. -/
def encodePayload (p : SeatUpdatePayload) : JVal :=
  JVal.jobj [("seats", JVal.jarr (p.seats.map encodeSeatUpdateSeat))]

/-- The props the hook's main effect depends on:
`enabled`, `isAuthenticated`, `concertId`. -/
structure SocketProps where
  enabled : Bool
  isAuthenticated : Bool
  concertId : Option String
deriving DecidableEq, Repr

/-- Room membership actions emitted by the hook
(`joinConcertRoom` / `leaveConcertRoom`). -/
inductive RoomAction where
  | join (concertId : String)
  | leave (concertId : String)
deriving DecidableEq, Repr

/-- Room actions of one run of the effect body: nothing when the
`!enabled || !isAuthenticated` guard returns early, otherwise
`joinConcertRoom concertId` when a concert id is supplied. -/
def effectSetupActions (p : SocketProps) : List RoomAction :=
  if p.enabled && p.isAuthenticated then
    match p.concertId with
    | some c => [RoomAction.join c]
    | none => []
  else []

/-- Room actions of the effect's cleanup: `leaveConcertRoom concertId` when
the effect body ran past its guard and a concert id was supplied (the
cleanup closure only exists in that case, and its `socket && concertId`
test then passes). -/
def effectCleanupActions (p : SocketProps) : List RoomAction :=
  if p.enabled && p.isAuthenticated then
    match p.concertId with
    | some c => [RoomAction.leave c]
    | none => []
  else []

/-- Room-action trace of a mounted hook as its props change through the
given list and the component finally unmounts: React runs the previous
effect's cleanup before the next effect body, and the last cleanup on
unmount. -/
def hookTraceFrom (prev : SocketProps) : List SocketProps → List RoomAction
  | [] => effectCleanupActions prev
  | q :: rest => effectCleanupActions prev ++ effectSetupActions q ++ hookTraceFrom q rest

/-- Full room-action trace for a props history (mount on the first value,
unmount after the last). -/
def hookTrace : List SocketProps → List RoomAction
  | [] => []
  | p :: rest => effectSetupActions p ++ hookTraceFrom p rest

/-- Effect of one room action on the set of rooms this connection is in. -/
def applyAction (rooms : List String) : RoomAction → List String
  | RoomAction.join c => c :: rooms
  | RoomAction.leave c => rooms.filter (fun r => r != c)

/-- Effect of a sequence of room actions. -/
def applyActions (rooms : List String) (as : List RoomAction) : List String :=
  as.foldl applyAction rooms

/-! ## Part 3: the `InteractiveSeatMap` component
(src/src/components/seat/InteractiveSeatMap.tsx).  The `ISeat` type lives
in `@/lib/types`, outside the supplied sources; its fields are taken from
their uses in the component. -/

/-- A seat as consumed by the seat map. -/
structure ISeat where
  _id : String
  row : String
  column : Nat
  seatNumber : String
  seatType : String
  status : String
  price : ℚ
deriving DecidableEq, Repr

/-- The `isSeatDisabled` predicate:
`seat.status === "RESERVED" || seat.status === "BOOKED" || locked`. -/
def isSeatDisabled (seat : ISeat) (locked : Bool) : Bool :=
  seat.status == "RESERVED" || seat.status == "BOOKED" || locked

/-- The click/tap guard on each seat circle:
`onClick={() => !isDisabled && onSeatClick(seat)}` — the emitted click
intent, if any. -/
def seatClickIntent (seat : ISeat) (locked : Bool) : Option ISeat :=
  if isSeatDisabled seat locked then none else some seat

/-! ## Part 4: the My Tickets page (src/src/app/tickets/page.tsx) -/

/-- The fields of a booking's populated concert that the page reads;
`startTime` is a parsed timestamp, `none` when absent or empty. -/
structure ConcertInfo where
  startTime : Option Int
deriving DecidableEq, Repr

/-- A booking as consumed by the page (`concertId` is the populated concert
object, possibly missing). -/
structure Booking where
  _id : String
  status : String
  concertId : Option ConcertInfo
deriving DecidableEq, Repr

/-- Parsed start time of a booking's concert, following
`t.concertId?.startTime`. -/
def bookingStart (t : Booking) : Option Int :=
  match t.concertId with
  | none => none
  | some c => c.startTime

/-- `tickets.filter(t => t.status === "CONFIRMED")`. -/
def confirmedTickets (tickets : List Booking) : List Booking :=
  tickets.filter (fun t => t.status == "CONFIRMED")

/-- The Upcoming Events list: confirmed bookings whose concert start time
exists and lies strictly after `now`.  The page's repeated `new Date()`
calls are modelled as the single render instant `now`. -/
def upcomingTickets (tickets : List Booking) (now : Int) : List Booking :=
  (confirmedTickets tickets).filter (fun t =>
    match bookingStart t with
    | some d => now < d
    | none => false)

/-- The Past Events list: confirmed bookings whose concert start time exists
and is at or before `now`. -/
def pastTickets (tickets : List Booking) (now : Int) : List Booking :=
  (confirmedTickets tickets).filter (fun t =>
    match bookingStart t with
    | some d => d ≤ now
    | none => false)

/-! ## Part 5: the seat-locking core, modelled from the specification.
The repository contains only the client; the server-side Lock Manager and
Reservation Coordinator of spec §4.2–§4.3 are absent from the sources and
are modelled here from the specification's words. -/

/-- Modelled from the spec: the seat statuses of the authoritative store
(§3), `AVAILABLE`, `LOCKED`, `RESERVED`/`BOOKED`. -/
inductive SrvSeatStatus where
  | AVAILABLE
  | LOCKED
  | BOOKED
deriving DecidableEq, Repr

/-- Modelled from the spec: a lock, an ephemeral (seat, session, expiry)
association owned by the Lock Manager (§3). -/
structure LockEntry where
  seat : Nat
  session : Nat
  expiresAt : Nat
deriving DecidableEq, Repr

/-- Modelled from the spec: the Lock Manager's state for one concert —
the active locks plus the set of seats already converted to bookings. -/
structure LMState where
  locks : List LockEntry
  booked : List Nat
deriving DecidableEq, Repr

/-- The state with no locks and no bookings. -/
def lmEmpty : LMState := { locks := [], booked := [] }

/-- Modelled from the spec: the status the store reports for a seat (§4.1),
derived from the bookings and active locks. -/
def srvSeatStatus (st : LMState) (seat : Nat) : SrvSeatStatus :=
  if st.booked.contains seat then SrvSeatStatus.BOOKED
  else if st.locks.any (fun l => l.seat == seat) then SrvSeatStatus.LOCKED
  else SrvSeatStatus.AVAILABLE

/-- Result of a lock acquisition (§4.2). -/
inductive AcquireResult where
  | locked
  | conflict (current : SrvSeatStatus)
deriving DecidableEq, Repr

/-- Modelled from the spec: `acquire(concertId, seatId, sessionId, ttl)`
(§4.2) — fails with `Conflict` unless the seat is `AVAILABLE`; on success
records the lock with `lockExpiresAt = now + ttl`. -/
def acquire (st : LMState) (seat session ttl now : Nat) :
    LMState × AcquireResult :=
  if srvSeatStatus st seat = SrvSeatStatus.AVAILABLE then
    ({ st with locks := { seat := seat, session := session, expiresAt := now + ttl } :: st.locks },
     AcquireResult.locked)
  else (st, AcquireResult.conflict (srvSeatStatus st seat))

/-- Result of a lock release (§4.2). -/
inductive ReleaseResult where
  | released
  | conflict
deriving DecidableEq, Repr

/-- Modelled from the spec: `release(concertId, seatId, sessionId)` (§4.2)
— fails unless the seat is locked by this very session. -/
def release (st : LMState) (seat session : Nat) : LMState × ReleaseResult :=
  if st.locks.any (fun l => l.seat == seat && l.session == session) then
    ({ st with locks := st.locks.filter (fun l => !(l.seat == seat && l.session == session)) },
     ReleaseResult.released)
  else (st, ReleaseResult.conflict)

/-- Modelled from the spec: `expireSweep(now)` (§4.2) — every lock with
`lockExpiresAt <= now` is dropped, returning the freed seats (the emitted
broadcast events). -/
def expireSweep (st : LMState) (now : Nat) : LMState × List Nat :=
  ({ st with locks := st.locks.filter (fun l => !(l.expiresAt ≤ now)) },
   (st.locks.filter (fun l => l.expiresAt ≤ now)).map (fun l => l.seat))

/-- Modelled from the spec: conversion of a held lock into a booking
(§4.3, `Confirmed`) — the seat moves from `LOCKED` to `BOOKED` in a single
transition, only when this session holds the lock. -/
def confirmSeat (st : LMState) (seat session : Nat) : LMState :=
  if st.locks.any (fun l => l.seat == seat && l.session == session) then
    { locks := st.locks.filter (fun l => !(l.seat == seat && l.session == session)),
      booked := seat :: st.booked }
  else st

/-- One operation against the Lock Manager, from any session. -/
inductive LMOp where
  | acquireOp (seat session ttl now : Nat)
  | releaseOp (seat session : Nat)
  | sweepOp (now : Nat)
  | confirmOp (seat session : Nat)
deriving DecidableEq, Repr

/-- Interpretation of one operation. -/
def lmStep (st : LMState) : LMOp → LMState
  | LMOp.acquireOp seat session ttl now => (acquire st seat session ttl now).1
  | LMOp.releaseOp seat session => (release st seat session).1
  | LMOp.sweepOp now => (expireSweep st now).1
  | LMOp.confirmOp seat session => confirmSeat st seat session

/-- Interleaved run of any sequence of operations from the empty state. -/
def lmRun (ops : List LMOp) : LMState :=
  ops.foldl lmStep lmEmpty

/-- Whether `session` holds an active lock on `seat` in state `st`. -/
def holdsLock (st : LMState) (seat session : Nat) : Bool :=
  st.locks.any (fun l => l.seat == seat && l.session == session)

/-- Outcome of a selection request (§4.3, §7). -/
inductive SelectResult where
  | allLocked
  | limitExceeded
  | conflictAt (seat : Nat)
deriving DecidableEq, Repr

/-- Modelled from the spec: rolling back the locks acquired so far in this
attempt, in acquisition order (§4.3). -/
def rollbackLocks (st : LMState) (acquired : List Nat) (session : Nat) : LMState :=
  acquired.foldl (fun s seat => (release s seat session).1) st

/-- Modelled from the spec: the coordinator's seat-by-seat acquisition loop
(§4.3) — stop at the first conflict, roll back everything acquired so far.
Also returns the list of seats on which an acquisition was attempted. -/
def acquireAll (session ttl now : Nat) :
    LMState → List Nat → List Nat → LMState × SelectResult × List Nat
  | st, _acquired, [] => (st, SelectResult.allLocked, [])
  | st, acquired, s :: rest =>
    match acquire st s session ttl now with
    | (st', AcquireResult.locked) =>
      let r := acquireAll session ttl now st' (acquired ++ [s]) rest
      (r.1, r.2.1, s :: r.2.2)
    | (st', AcquireResult.conflict _) =>
      (rollbackLocks st' acquired session, SelectResult.conflictAt s, [s])

/-- Modelled from the spec: `selectSeats` (§4.3, §6) — the 10-seat cap is
enforced before any lock attempt, failing fast with `LimitExceeded`;
otherwise the seats are acquired one by one with rollback on failure.  The
third component lists the seats on which `acquire` was attempted. -/
def selectSeats (st : LMState) (seatIds : List Nat) (session ttl now : Nat) :
    LMState × SelectResult × List Nat :=
  if 10 < seatIds.length then (st, SelectResult.limitExceeded, [])
  else acquireAll session ttl now st [] seatIds

/-! ## Theorems -/

/-- C1: a selection request exceeding the 10-seat cap is rejected before any
lock is attempted: `toggleSeat` on a selection already holding ten seats
leaves the selection unchanged, and the spec-modelled coordinator rejects
an over-cap request with `LimitExceeded`, leaving the lock state untouched
and attempting zero acquisitions. -/
theorem limit_exceeded_before_lock :
    (∀ (seats : List Seat) (sel : List Nat) (id : Nat),
        10 ≤ sel.length → sel.contains id = false →
        (toggleSeat seats sel id).1 = sel) ∧
    (∀ (st : LMState) (seatIds : List Nat) (session ttl now : Nat),
        10 < seatIds.length →
        selectSeats st seatIds session ttl now = (st, SelectResult.limitExceeded, [])) := by
  constructor
  · intro seats sel id hlen hmem
    unfold toggleSeat
    cases hfind : seats.find? (fun s => s.id == id) with
    | none => rfl
    | some seat =>
      simp only
      split
      · rfl
      · split
        · rfl
        · split
          · simp_all
          · simp_all
  · intro st seatIds session ttl now h
    unfold selectSeats
    rw [if_pos h]

/-- A seat list and full selection witnessing the cap behaviour. -/
def capSeats : List Seat :=
  (List.range 11).map (fun i =>
    { id := i + 1, x := 0, y := 0, tier := 0, status := SeatStatus.available })

/-- The ten selected seat ids of the cap witness. -/
def capSelection : List Nat := [1, 2, 3, 4, 5, 6, 7, 8, 9, 10]

theorem limit_exceeded_before_lock_witness :
    (toggleSeat capSeats capSelection 11).1 = capSelection ∧
    selectSeats lmEmpty [1, 2, 3, 4, 5, 6, 7, 8, 9, 10, 11] 7 120 0 =
      (lmEmpty, SelectResult.limitExceeded, []) :=
  ⟨limit_exceeded_before_lock.1 capSeats capSelection 11 (by decide) (by decide),
   limit_exceeded_before_lock.2 lmEmpty [1, 2, 3, 4, 5, 6, 7, 8, 9, 10, 11] 7 120 0 (by decide)⟩

/-- C9: the seat map never emits a click intent for an unavailable seat:
for a seat whose status is RESERVED or BOOKED, or whenever the `locked`
prop is true, the guarded `onSeatClick` call never fires. -/
theorem no_click_intent_for_unavailable :
    ∀ (seat : ISeat) (locked : Bool),
      seat.status = "RESERVED" ∨ seat.status = "BOOKED" ∨ locked = true →
      seatClickIntent seat locked = none := by
  intro seat locked h
  unfold seatClickIntent isSeatDisabled
  rcases h with h | h | h <;> simp [h]

/-- A concrete reserved seat for the click-guard witness. -/
def reservedISeat : ISeat :=
  { _id := "seat-1", row := "A", column := 1, seatNumber := "A1",
    seatType := "gold", status := "RESERVED", price := 100 }

theorem no_click_intent_for_unavailable_witness :
    seatClickIntent reservedISeat false = none :=
  no_click_intent_for_unavailable reservedISeat false (Or.inl rfl)

/-- Case analysis of `toggleSeat`: the selection is left unchanged, or the
clicked id is filtered out (it was selected), or the clicked id is appended
(it was not selected and the cap left room). -/
theorem toggleSeat_cases (seats : List Seat) (sel : List Nat) (id : Nat) :
    (toggleSeat seats sel id).1 = sel ∨
    (sel.contains id = true ∧
      (toggleSeat seats sel id).1 = sel.filter (fun x => x != id)) ∨
    (sel.contains id = false ∧ sel.length < 10 ∧
      (toggleSeat seats sel id).1 = sel ++ [id]) := by
  unfold toggleSeat
  cases seats.find? (fun s => s.id == id) with
  | none => exact Or.inl rfl
  | some seat =>
    simp only
    split
    · exact Or.inl rfl
    · split
      · exact Or.inl rfl
      · next hcap =>
        split
        · next hmem => exact Or.inr (Or.inl ⟨hmem, rfl⟩)
        · next hmem =>
          refine Or.inr (Or.inr ⟨?_, ?_, rfl⟩)
          · exact Bool.eq_false_iff.mpr hmem
          · by_contra hlen
            exact hcap ⟨Bool.eq_false_iff.mpr hmem, Nat.le_of_not_lt hlen⟩

/-- `toggleSeat` on an existing available seat that is not yet selected,
with room under the cap, appends the seat id. -/
theorem toggleSeat_add (seats : List Seat) (sel : List Nat) (id : Nat)
    (seat : Seat) (hfind : seats.find? (fun s => s.id == id) = some seat)
    (hav : seat.status = SeatStatus.available)
    (hmem : sel.contains id = false) (hlen : sel.length < 10) :
    toggleSeat seats sel id = (sel ++ [id], none) := by
  unfold toggleSeat
  rw [hfind]
  simp only
  rw [if_neg (by rw [hav]; exact fun h => SeatStatus.noConfusion h)]
  rw [if_neg (fun h => Nat.not_le_of_lt hlen h.2)]
  rw [if_neg (by rw [hmem]; exact Bool.false_ne_true)]

/-- `toggleSeat` on an existing available seat that is currently selected
removes exactly its id, keeping the rest in order. -/
theorem toggleSeat_remove (seats : List Seat) (sel : List Nat) (id : Nat)
    (seat : Seat) (hfind : seats.find? (fun s => s.id == id) = some seat)
    (hav : seat.status = SeatStatus.available)
    (hmem : sel.contains id = true) :
    toggleSeat seats sel id = (sel.filter (fun x => x != id), none) := by
  unfold toggleSeat
  rw [hfind]
  simp only
  rw [if_neg (by rw [hav]; exact fun h => SeatStatus.noConfusion h)]
  rw [if_neg (fun h => by rw [hmem] at h; simp at h)]
  rw [if_pos hmem]

/-- One `toggleSeat` step keeps the selection duplicate-free and within the
ten-seat cap. -/
theorem toggleSeat_preserves (seats : List Seat) (sel : List Nat) (id : Nat)
    (hnd : sel.Nodup) (hlen : sel.length ≤ 10) :
    ((toggleSeat seats sel id).1).Nodup ∧ (toggleSeat seats sel id).1.length ≤ 10 := by
  rcases toggleSeat_cases seats sel id with heq | ⟨hmem, heq⟩ | ⟨hmem, hcap, heq⟩
  · rw [heq]; exact ⟨hnd, hlen⟩
  · rw [heq]
    exact ⟨hnd.filter _, le_trans (List.length_filter_le _ _) hlen⟩
  · rw [heq]
    have hid : id ∉ sel := by simpa using hmem
    constructor
    · rw [List.nodup_append]
      exact ⟨hnd, List.nodup_singleton id, by simpa using hid⟩
    · rw [List.length_append, List.length_singleton]
      omega

/-- Folding clicks through `toggleSeat` preserves the selection invariant. -/
theorem toggleFold_inv (seats : List Seat) (clicks : List Nat) :
    ∀ sel : List Nat, sel.Nodup → sel.length ≤ 10 →
      (clicks.foldl (fun sel id => (toggleSeat seats sel id).1) sel).Nodup ∧
      (clicks.foldl (fun sel id => (toggleSeat seats sel id).1) sel).length ≤ 10 := by
  induction clicks with
  | nil => intro sel h1 h2; exact ⟨h1, h2⟩
  | cons c cs ih =>
    intro sel h1 h2
    simp only [List.foldl_cons]
    have h := toggleSeat_preserves seats sel c h1 h2
    exact ih _ h.1 h.2

/-- C3: under every sequence of `toggleSeat` clicks the selection stays a
duplicate-free ordered list of at most ten seat ids, and every single step
either leaves the selection unchanged, filters out the clicked id, or
appends the clicked id at the end. -/
theorem selection_ordered_bounded :
    (∀ (seats : List Seat) (clicks : List Nat),
        (toggleRun seats clicks).Nodup ∧ (toggleRun seats clicks).length ≤ 10) ∧
    (∀ (seats : List Seat) (sel : List Nat) (id : Nat),
        (toggleSeat seats sel id).1 = sel ∨
        (toggleSeat seats sel id).1 = sel.filter (fun x => x != id) ∨
        (toggleSeat seats sel id).1 = sel ++ [id]) := by
  constructor
  · intro seats clicks
    exact toggleFold_inv seats clicks [] List.nodup_nil (by simp)
  · intro seats sel id
    rcases toggleSeat_cases seats sel id with heq | ⟨_, heq⟩ | ⟨_, _, heq⟩
    · exact Or.inl heq
    · exact Or.inr (Or.inl heq)
    · exact Or.inr (Or.inr heq)

/-- C8: toggling an available, unselected seat twice restores the original
selection exactly, and toggling a selected available seat removes exactly
that seat while keeping the remaining ids in their relative order. -/
theorem toggleSeat_roundtrip :
    (∀ (seats : List Seat) (sel : List Nat) (id : Nat) (seat : Seat),
        seats.find? (fun s => s.id == id) = some seat →
        seat.status = SeatStatus.available →
        sel.contains id = false → sel.length < 10 →
        (toggleSeat seats (toggleSeat seats sel id).1 id).1 = sel) ∧
    (∀ (seats : List Seat) (sel : List Nat) (id : Nat) (seat : Seat),
        seats.find? (fun s => s.id == id) = some seat →
        seat.status = SeatStatus.available →
        sel.contains id = true →
        (toggleSeat seats sel id).1 = sel.filter (fun x => x != id)) := by
  constructor
  · intro seats sel id seat hfind hav hmem hlen
    rw [toggleSeat_add seats sel id seat hfind hav hmem hlen]
    simp only
    rw [toggleSeat_remove seats (sel ++ [id]) id seat hfind hav (by simp)]
    simp only [List.filter_append]
    have hid : id ∉ sel := by simpa using hmem
    have h1 : sel.filter (fun x => x != id) = sel := by
      rw [List.filter_eq_self]
      intro a ha
      simp only [bne_iff_ne, ne_eq, decide_eq_true_eq]
      intro h
      exact hid (h ▸ ha)
    have h2 : [id].filter (fun x => x != id) = ([] : List Nat) := by simp
    rw [h1, h2, List.append_nil]
  · intro seats sel id seat hfind hav hmem
    rw [toggleSeat_remove seats sel id seat hfind hav hmem]

/-- A concrete arena state for the round-trip witness: seat 3 exists, is
available and unselected, and the selection [1, 2] has room. -/
def rtSeats : List Seat :=
  [ { id := 1, x := 0, y := 0, tier := 0, status := SeatStatus.available },
    { id := 2, x := 0, y := 0, tier := 1, status := SeatStatus.available },
    { id := 3, x := 0, y := 0, tier := 2, status := SeatStatus.available },
    { id := 4, x := 0, y := 0, tier := 3, status := SeatStatus.reserved } ]

theorem toggleSeat_roundtrip_witness :
    (toggleSeat rtSeats (toggleSeat rtSeats [1, 2] 3).1 3).1 = [1, 2] ∧
    (toggleSeat rtSeats [1, 2] 2).1 = [1, 2].filter (fun x => x != 2) :=
  ⟨toggleSeat_roundtrip.1 rtSeats [1, 2] 3
      { id := 3, x := 0, y := 0, tier := 2, status := SeatStatus.available }
      (by decide) rfl (by decide) (by decide),
   toggleSeat_roundtrip.2 rtSeats [1, 2] 2
      { id := 2, x := 0, y := 0, tier := 1, status := SeatStatus.available }
      (by decide) rfl (by decide)⟩

/-- Whatever tier index a seat carries, the price the cart reads off
`tiersConfig` is non-negative (out-of-range indices hit the zero-priced
fallback). -/
theorem tiersConfig_getD_price_nonneg (n : Nat) :
    0 ≤ (tiersConfig.getD n defaultTier).price := by
  match n with
  | 0 => norm_num [tiersConfig, List.getD]
  | 1 => norm_num [tiersConfig, List.getD]
  | 2 => norm_num [tiersConfig, List.getD]
  | 3 => norm_num [tiersConfig, List.getD]
  | 4 => norm_num [tiersConfig, List.getD]
  | n + 5 =>
    have h : tiersConfig.getD (n + 5) defaultTier = defaultTier := by
      simp [tiersConfig, List.getD]
    rw [h]
    norm_num [defaultTier]

/-- C7: every configured tier price is non-negative, and every cart line of
`selectedSeatDetails` carries exactly the configured price and name of the
selected seat's tier (hence a non-negative price). -/
theorem seat_price_from_tier :
    (∀ t ∈ tiersConfig, 0 ≤ t.price) ∧
    (∀ (seats : List Seat) (sel : List Nat),
        ∀ d ∈ selectedSeatDetails seats sel,
          0 ≤ d.price ∧
          ∃ s ∈ seats, sel.contains s.id = true ∧ s.id = d.id ∧
            d.price = (tiersConfig.getD s.tier defaultTier).price ∧
            d.tierName = (tiersConfig.getD s.tier defaultTier).name) := by
  constructor
  · intro t ht
    fin_cases ht <;> norm_num
  · intro seats sel d hd
    unfold selectedSeatDetails at hd
    rcases List.mem_map.mp hd with ⟨s, hs, hsd⟩
    rcases List.mem_filter.mp hs with ⟨hmem, hsel⟩
    refine ⟨?_, s, hmem, hsel, ?_, ?_, ?_⟩
    · rw [← hsd]
      exact tiersConfig_getD_price_nonneg s.tier
    · rw [← hsd]
    · rw [← hsd]
    · rw [← hsd]

theorem seat_price_from_tier_witness :
    (0 ≤ (Tier.mk "VIP" "#FFD700" 40 150).price) ∧
    (0 ≤ SeatDetail.price { id := 1, tierName := "VIP", price := 150 } ∧
      ∃ s ∈ rtSeats, [1].contains s.id = true ∧
        s.id = SeatDetail.id { id := 1, tierName := "VIP", price := 150 } ∧
        SeatDetail.price { id := 1, tierName := "VIP", price := 150 } =
          (tiersConfig.getD s.tier defaultTier).price ∧
        SeatDetail.tierName { id := 1, tierName := "VIP", price := 150 } =
          (tiersConfig.getD s.tier defaultTier).name) :=
  ⟨seat_price_from_tier.1 (Tier.mk "VIP" "#FFD700" 40 150) (by decide),
   seat_price_from_tier.2 rtSeats [1] { id := 1, tierName := "VIP", price := 150 }
     (by decide)⟩

/-- C10: the My Tickets page shows only CONFIRMED bookings; a CONFIRMED
booking with a concert start time is in the Upcoming list exactly when the
start time is strictly after the render instant and in the Past list
exactly when it is not, hence in exactly one of the two; a CONFIRMED
booking without a start time appears in neither. -/
theorem tickets_confirmed_partition :
    (∀ (tickets : List Booking) (now : Int) (t : Booking),
        t ∈ upcomingTickets tickets now ∨ t ∈ pastTickets tickets now →
        t.status = "CONFIRMED") ∧
    (∀ (tickets : List Booking) (now : Int) (t : Booking) (d : Int),
        t ∈ tickets → t.status = "CONFIRMED" → bookingStart t = some d →
        (t ∈ upcomingTickets tickets now ↔ now < d) ∧
        (t ∈ pastTickets tickets now ↔ d ≤ now)) ∧
    (∀ (tickets : List Booking) (now : Int) (t : Booking),
        bookingStart t = none →
        t ∉ upcomingTickets tickets now ∧ t ∉ pastTickets tickets now) := by
  refine ⟨?_, ?_, ?_⟩
  · intro tickets now t h
    rcases h with h | h
    · rcases List.mem_filter.mp h with ⟨hc, _⟩
      rcases List.mem_filter.mp hc with ⟨_, hs⟩
      simpa using hs
    · rcases List.mem_filter.mp h with ⟨hc, _⟩
      rcases List.mem_filter.mp hc with ⟨_, hs⟩
      simpa using hs
  · intro tickets now t d hmem hconf hstart
    have hc : t ∈ confirmedTickets tickets :=
      List.mem_filter.mpr ⟨hmem, by simp [hconf]⟩
    constructor
    · constructor
      · intro h
        rcases List.mem_filter.mp h with ⟨_, hp⟩
        rw [hstart] at hp
        simpa using hp
      · intro h
        exact List.mem_filter.mpr ⟨hc, by rw [hstart]; simpa using h⟩
    · constructor
      · intro h
        rcases List.mem_filter.mp h with ⟨_, hp⟩
        rw [hstart] at hp
        simpa using hp
      · intro h
        exact List.mem_filter.mpr ⟨hc, by rw [hstart]; simpa using h⟩
  · intro tickets now t hstart
    constructor
    · intro h
      rcases List.mem_filter.mp h with ⟨_, hp⟩
      rw [hstart] at hp
      simp at hp
    · intro h
      rcases List.mem_filter.mp h with ⟨_, hp⟩
      rw [hstart] at hp
      simp at hp

/-- Concrete bookings for the tickets-page witness: one upcoming CONFIRMED
booking, one past CONFIRMED booking, one PENDING booking and one CONFIRMED
booking without concert data. -/
def wUpcomingBooking : Booking :=
  { _id := "b1", status := "CONFIRMED", concertId := some { startTime := some 200 } }

/-- A CONFIRMED booking whose concert has no start time. -/
def wNoDateBooking : Booking :=
  { _id := "b4", status := "CONFIRMED", concertId := none }

def wTickets : List Booking :=
  [ wUpcomingBooking,
    { _id := "b2", status := "CONFIRMED", concertId := some { startTime := some 50 } },
    { _id := "b3", status := "PENDING", concertId := some { startTime := some 200 } },
    wNoDateBooking ]

theorem tickets_confirmed_partition_witness :
    (wUpcomingBooking.status = "CONFIRMED") ∧
    (wUpcomingBooking ∈ upcomingTickets wTickets 100 ↔ (100 : Int) < 200) ∧
    (wNoDateBooking ∉ upcomingTickets wTickets 100) :=
  ⟨tickets_confirmed_partition.1 wTickets 100 wUpcomingBooking (Or.inl (by decide)),
   (tickets_confirmed_partition.2.1 wTickets 100 wUpcomingBooking 200
      (by decide) rfl rfl).1,
   (tickets_confirmed_partition.2.2 wTickets 100 wNoDateBooking rfl).1⟩

/-- A seat the store reports `AVAILABLE` carries no active lock. -/
theorem srvSeatStatus_available_no_lock (st : LMState) (seat : Nat)
    (h : srvSeatStatus st seat = SrvSeatStatus.AVAILABLE) :
    st.locks.any (fun l => l.seat == seat) = false := by
  unfold srvSeatStatus at h
  split at h
  · exact absurd h (by simp)
  · split at h
    · next h2 => exact absurd h (by simp)
    · next h2 => simpa using h2

/-- Each Lock Manager operation preserves the one-lock-per-seat shape of
the lock table. -/
theorem lmStep_locks_nodup (st : LMState) (op : LMOp)
    (h : (st.locks.map (fun l => l.seat)).Nodup) :
    ((lmStep st op).locks.map (fun l => l.seat)).Nodup := by
  cases op with
  | acquireOp seat session ttl now =>
    simp only [lmStep, acquire]
    split
    · next hav =>
      simp only [List.map_cons, List.nodup_cons]
      refine ⟨?_, h⟩
      intro hmem
      have hany := srvSeatStatus_available_no_lock st seat hav
      rcases List.mem_map.mp hmem with ⟨l, hl, hlseat⟩
      have : st.locks.any (fun l => l.seat == seat) = true :=
        List.any_eq_true.mpr ⟨l, hl, by simp [hlseat]⟩
      rw [hany] at this
      exact Bool.false_ne_true this
    · exact h
  | releaseOp seat session =>
    simp only [lmStep, release]
    split
    · exact h.sublist ((List.filter_sublist st.locks).map (fun l => l.seat))
    · exact h
  | sweepOp now =>
    simp only [lmStep, expireSweep]
    exact h.sublist ((List.filter_sublist st.locks).map (fun l => l.seat))
  | confirmOp seat session =>
    simp only [lmStep, confirmSeat]
    split
    · exact h.sublist ((List.filter_sublist st.locks).map (fun l => l.seat))
    · exact h

/-- In every state reachable by any interleaving of operations, the lock
table covers each seat at most once. -/
theorem lmRun_locks_nodup (ops : List LMOp) :
    ((lmRun ops).locks.map (fun l => l.seat)).Nodup := by
  suffices h : ∀ st : LMState, (st.locks.map (fun l => l.seat)).Nodup →
      ((ops.foldl lmStep st).locks.map (fun l => l.seat)).Nodup by
    exact h lmEmpty (by simp [lmEmpty])
  induction ops with
  | nil => intro st hst; exact hst
  | cons op rest ih =>
    intro st hst
    simp only [List.foldl_cons]
    exact ih (lmStep st op) (lmStep_locks_nodup st op hst)

/-- C2: mutual exclusion — after any sequence of concurrent-session
operations against the spec-modelled Lock Manager, at most one session
holds an active lock on any given seat. -/
theorem lock_mutual_exclusion :
    ∀ (ops : List LMOp) (seat s1 s2 : Nat),
      holdsLock (lmRun ops) seat s1 = true →
      holdsLock (lmRun ops) seat s2 = true → s1 = s2 := by
  intro ops seat s1 s2 h1 h2
  have hnd := lmRun_locks_nodup ops
  rw [holdsLock, List.any_eq_true] at h1 h2
  rcases h1 with ⟨l1, hl1, hb1⟩
  rcases h2 with ⟨l2, hl2, hb2⟩
  simp only [Bool.and_eq_true, beq_iff_eq] at hb1 hb2
  have hfun := List.inj_on_of_nodup_map hnd
  have heq : l1 = l2 := hfun hl1 hl2 (by rw [hb1.1, hb2.1])
  rw [← hb1.2, ← hb2.2, heq]

/-- Scenario A of the spec, as witness data: two sessions race to acquire
seat 1; the first gets the lock and the second a conflict, and only the
first holds the lock afterwards. -/
def raceOps : List LMOp :=
  [LMOp.acquireOp 1 100 120 0, LMOp.acquireOp 1 200 120 0]

theorem lock_mutual_exclusion_witness :
    holdsLock (lmRun raceOps) 1 100 = true ∧ (100 : Nat) = 100 :=
  ⟨by decide, lock_mutual_exclusion raceOps 1 100 100 (by decide) (by decide)⟩

/-- Every encoded seat record of a payload fits the hook's per-seat type. -/
theorem encodeSeatUpdateSeat_valid (s : SeatUpdateSeat) :
    isCodeSeatRecord (encodeSeatUpdateSeat s) = true := by
  cases h : s.lockedBy with
  | none => simp [encodeSeatUpdateSeat, isCodeSeatRecord, jlookup, isJStr, h]
  | some u =>
    cases u with
    | none => simp [encodeSeatUpdateSeat, isCodeSeatRecord, jlookup, isJStr, h]
    | some name => simp [encodeSeatUpdateSeat, isCodeSeatRecord, jlookup, isJStr, h]

/-- C4 (amended): each event delivered on the seat-update stream is a
record with a single field `seats` holding an array of seat records, each
of which has string fields `_id` and `status` and an optional `lockedBy`
that is a string or null. -/
theorem seat_update_event_shape :
    ∀ p : SeatUpdatePayload,
      isCodeSeatUpdateEvent (encodePayload p) = true ∧
      (p.seats.map encodeSeatUpdateSeat).all isCodeSeatRecord = true := by
  intro p
  have hall : (p.seats.map encodeSeatUpdateSeat).all isCodeSeatRecord = true := by
    rw [List.all_eq_true]
    intro v hv
    rcases List.mem_map.mp hv with ⟨s, _, hs⟩
    rw [← hs]
    exact encodeSeatUpdateSeat_valid s
  refine ⟨?_, hall⟩
  simp only [encodePayload, isCodeSeatUpdateEvent, jlookup]
  simpa using hall

/-- A payload that is well-typed for the hook's `seatUpdate` handler. -/
def cxPayload : SeatUpdatePayload :=
  { seats := [ { _id := "seat-1", status := "AVAILABLE", lockedBy := none } ] }

/-- C4 (counterexample): a `seatUpdate` event of exactly the hook's payload
type is not a record with fields `seatId`, `status` and optional
`lockedBy` — the per-seat records sit inside a `seats` array and name the
identifier `_id`, not `seatId`. -/
theorem seat_update_event_shape_counterexample :
    isCodeSeatUpdateEvent (encodePayload cxPayload) = true ∧
    isSpecSeatUpdateEvent (encodePayload cxPayload) = false := by decide

/-- Written from the specification's words, for comparison with the code's
types: a seat record's status is one of AVAILABLE, LOCKED, RESERVED,
BOOKED, and `lockedBy` is present if and only if the status is LOCKED. -/
def specSeatFieldInvariant (s : SeatUpdateSeat) : Bool :=
  (s.status == "AVAILABLE" || s.status == "LOCKED" ||
    s.status == "RESERVED" || s.status == "BOOKED") &&
  (s.lockedBy.isSome == (s.status == "LOCKED"))

/-- A seat record that the hook's event type accepts although its
`lockedBy` is present while its status is not LOCKED. -/
def cxLockedBySeat : SeatUpdateSeat :=
  { _id := "seat-9", status := "AVAILABLE", lockedBy := some (some "sess-2") }

/-- C6 (counterexample): the seat-update event type does not enforce the
claimed field correspondence — a record with status AVAILABLE and a
present `lockedBy` is a well-typed event seat yet violates the claimed
invariant. -/
theorem seat_status_fields_counterexample :
    isCodeSeatRecord (encodeSeatUpdateSeat cxLockedBySeat) = true ∧
    specSeatFieldInvariant cxLockedBySeat = false := by decide

/-- C6 (amended): every seat of the arena component's client state has
exactly one status, drawn from available/reserved (the client `Seat` type
carries no lock fields at all), while a seat in a seat-update event is
guaranteed only a string status and an optional, possibly null, `lockedBy`
whose presence is not tied to the status. -/
theorem seat_status_fields :
    (∀ (o : FloatOracle) (total : Nat),
        (generateArenaSeats o total).all
          (fun s => s.status == SeatStatus.available ||
                    s.status == SeatStatus.reserved) = true) ∧
    (∀ s : Seat,
        (s.status == SeatStatus.available) = !(s.status == SeatStatus.reserved)) ∧
    (∀ u : SeatUpdateSeat, isCodeSeatRecord (encodeSeatUpdateSeat u) = true) := by
  refine ⟨?_, ?_, encodeSeatUpdateSeat_valid⟩
  · intro o total
    rw [List.all_eq_true]
    intro s _
    cases s.status <;> simp
  · intro s
    cases s.status <;> simp

/-- The room membership an effect run establishes: the supplied concert's
room when the effect is active and a concert id is given, nothing
otherwise. -/
def roomsOf (p : SocketProps) : List String :=
  if p.enabled && p.isAuthenticated then
    match p.concertId with
    | some c => [c]
    | none => []
  else []

/-- Every prefix of the action list keeps the connection in at most one
room, starting from the given membership. -/
def atMostOneRoom (rooms : List String) (as : List RoomAction) : Prop :=
  ∀ n : Nat, (applyActions rooms (as.take n)).length ≤ 1

theorem atMostOneRoom_append (rooms : List String) (as bs : List RoomAction)
    (h1 : atMostOneRoom rooms as) (h2 : atMostOneRoom (applyActions rooms as) bs) :
    atMostOneRoom rooms (as ++ bs) := by
  intro n
  rw [List.take_append_eq_append_take]
  unfold applyActions
  rw [List.foldl_append]
  by_cases h : n ≤ as.length
  · rw [Nat.sub_eq_zero_of_le h]
    simpa using h1 n
  · rw [List.take_of_length_le (by omega)]
    exact h2 (n - as.length)

/-- Running an effect body from no membership lands in `roomsOf`. -/
theorem applyActions_setup (p : SocketProps) :
    applyActions [] (effectSetupActions p) = roomsOf p := by
  unfold effectSetupActions roomsOf
  split
  · cases p.concertId <;> rfl
  · rfl

/-- Running an effect's cleanup from its own membership empties it. -/
theorem applyActions_cleanup (p : SocketProps) :
    applyActions (roomsOf p) (effectCleanupActions p) = [] := by
  unfold effectCleanupActions roomsOf
  split
  · cases p.concertId with
    | none => rfl
    | some c => simp [applyActions, applyAction]
  · rfl

/-- Setup actions are prefix-safe from empty membership. -/
theorem atMostOneRoom_setup (p : SocketProps) :
    atMostOneRoom [] (effectSetupActions p) := by
  intro n
  unfold effectSetupActions
  split
  · cases p.concertId with
    | none => simp [applyActions]
    | some c =>
      match n with
      | 0 => simp [applyActions]
      | m + 1 => simp [applyActions, applyAction]
  · simp [applyActions]

/-- Cleanup actions are prefix-safe from the effect's own membership. -/
theorem atMostOneRoom_cleanup (p : SocketProps) :
    atMostOneRoom (roomsOf p) (effectCleanupActions p) := by
  intro n
  unfold effectCleanupActions roomsOf
  split
  · cases p.concertId with
    | none => simp [applyActions]
    | some c =>
      match n with
      | 0 => simp [applyActions]
      | m + 1 =>
        simp only [List.take_succ_cons, List.take_nil]
        simp [applyActions, applyAction]
  · simp [applyActions]

/-- From the membership its previous effect established, the remaining
trace of the hook keeps the connection in at most one room. -/
theorem atMostOneRoom_traceFrom (rest : List SocketProps) :
    ∀ prev : SocketProps, atMostOneRoom (roomsOf prev) (hookTraceFrom prev rest) := by
  induction rest with
  | nil => intro prev; exact atMostOneRoom_cleanup prev
  | cons q rest ih =>
    intro prev
    unfold hookTraceFrom
    rw [List.append_assoc]
    refine atMostOneRoom_append _ _ _ (atMostOneRoom_cleanup prev) ?_
    rw [applyActions_cleanup]
    refine atMostOneRoom_append _ _ _ (atMostOneRoom_setup q) ?_
    rw [applyActions_setup]
    exact ih q

/-- C5: each connection is in at most one concert room at a time — when the
hook's effect is active with a concert id it joins exactly that room and
its cleanup leaves exactly that room, and over every history of prop
changes (with the previous cleanup running before the next effect body),
every prefix of the emitted join/leave trace leaves the connection in at
most one room. -/
theorem socket_one_room_at_a_time :
    (∀ (p : SocketProps) (c : String),
        p.enabled = true → p.isAuthenticated = true → p.concertId = some c →
        effectSetupActions p = [RoomAction.join c] ∧
        effectCleanupActions p = [RoomAction.leave c]) ∧
    (∀ (ps : List SocketProps) (n : Nat),
        (applyActions [] ((hookTrace ps).take n)).length ≤ 1) := by
  constructor
  · intro p c he ha hc
    constructor
    · unfold effectSetupActions
      rw [he, ha, hc]
      rfl
    · unfold effectCleanupActions
      rw [he, ha, hc]
      rfl
  · intro ps
    cases ps with
    | nil => intro n; simp [hookTrace, applyActions]
    | cons p rest =>
      have h : atMostOneRoom [] (hookTrace (p :: rest)) := by
        unfold hookTrace
        refine atMostOneRoom_append _ _ _ (atMostOneRoom_setup p) ?_
        rw [applyActions_setup]
        exact atMostOneRoom_traceFrom rest p
      exact h

/-- Active hook props pointing at concert 1, for the room witness. -/
def wProps1 : SocketProps :=
  { enabled := true, isAuthenticated := true, concertId := some "concert-1" }

/-- Active hook props pointing at concert 2, for the room witness. -/
def wProps2 : SocketProps :=
  { enabled := true, isAuthenticated := true, concertId := some "concert-2" }

theorem socket_one_room_at_a_time_witness :
    (effectSetupActions wProps1 = [RoomAction.join "concert-1"] ∧
     effectCleanupActions wProps1 = [RoomAction.leave "concert-1"]) ∧
    (applyActions [] ((hookTrace [wProps1, wProps2]).take 3)).length ≤ 1 :=
  ⟨socket_one_room_at_a_time.1 wProps1 "concert-1" rfl rfl rfl,
   socket_one_room_at_a_time.2 [wProps1, wProps2] 3⟩

end TicketingUi
